import Mathlib

/-!
Verification of the model-routing, context-retrieval and memory-persistence
core of the Juggernaut backend (`core-engine/src/router.py`,
`core-engine/src/retrieval.py`, `core-engine/src/persistence.py`).

The Python code is shallowly embedded: model wrappers become a record of
pure behaviours, the SQLite tables and the vector collections become lists
of rows inside an explicit `Db` state, exceptions become `Except`/`Option`
results, and failure injection for the two storage backends is passed in a
`PersistEnv` record.  Strings are Lean `String`s; Python character-level
operations (`len`, `.lower()`, substring membership, regex word-boundary
search restricted to the ASCII keywords actually used) are reimplemented on
`List Char`.
-/

namespace Juggernaut

/-! ## Character-level helpers (Python `str.lower`, `in`, and `re.search(r'\b kw \b')`) -/

/-- ASCII word character, the `\w` class of the regexes in `router.py`
(the ten routing keywords are pure ASCII letters, so the ASCII fragment of
Python's Unicode `\w` is the part that is exercised). -/
def isWordChar (c : Char) : Bool :=
  c.isAlphanum || c == '_'

/-- Lowercased character data of a string, Python `s.lower()` on ASCII. -/
def lowerData (s : String) : List Char :=
  s.data.map Char.toLower

/-- Python substring membership `needle in hay` on character lists. -/
def substrAux (needle : List Char) : List Char → Bool
  | [] => needle.isEmpty
  | c :: rest => needle.isPrefixOf (c :: rest) || substrAux needle rest

/-- Python `needle in hay` for strings. -/
def containsSub (hay needle : String) : Bool :=
  substrAux needle.data hay.data

/-- A word boundary is satisfied next to the start/end of the string or next
to a non-word character (the keywords begin and end with word characters, so
Python's `\b` reduces to this test). -/
def boundaryOk : Option Char → Bool
  | none => true
  | some c => !(isWordChar c)

/-- Does `kw` match at the head of `text`, with word boundaries on both
sides (`prev` is the character just before the current position)? -/
def kwAt (kw text : List Char) (prev : Option Char) : Bool :=
  kw.isPrefixOf text && boundaryOk prev && boundaryOk (text.drop kw.length).head?

/-- Scan `text` for a word-boundary occurrence of `kw`. -/
def kwSearch (kw : List Char) : Option Char → List Char → Bool
  | prev, [] => kwAt kw [] prev
  | prev, c :: rest => kwAt kw (c :: rest) prev || kwSearch kw (some c) rest

/-- `re.search(r'\b' + keyword + r'\b', query, re.IGNORECASE)` of
`ModelRouter._estimate_complexity`: case-insensitive word-boundary search. -/
def containsKeyword (query kw : String) : Bool :=
  kwSearch (lowerData kw) none (lowerData query)

/-! ## Model wrapper interface -/

/-- Modelled from the spec: the Model Wrapper capability interface
(`app.models.base.BaseModelWrapper`, not under `src/`): a name, a static
availability flag, token counting, single-shot generation (`Except` error
message standing for a raised exception) and streaming generation (the
chunks yielded before either normal completion, flag `true`, or a
mid-stream/establishment failure, flag `false`). -/
structure ModelW where
  model_name : String
  is_available : Bool
  get_token_count : String → Nat
  generate : String → Except String String
  generate_stream : String → List String × Bool

/-! ## Model router (`router.py`) -/

/-- Router state: primary wrapper, ordered fallback wrappers, thresholds
(`ModelRouter.__init__` stores these). -/
structure ModelRouter where
  primary_model : ModelW
  fallback_models : List ModelW
  complexity_threshold : Int
  token_threshold : Nat

/-- `ModelRouter.__init__`: the supplied fallback list is filtered at
construction time to the available models. -/
def mkModelRouter (primary : ModelW) (fallbacks : List ModelW)
    (cth : Int) (tth : Nat) : ModelRouter :=
  { primary_model := primary
    fallback_models := fallbacks.filter (fun m => m.is_available)
    complexity_threshold := cth
    token_threshold := tth }

/-- The ten reasoning keywords of `_estimate_complexity`. -/
def complexKeywords : List String :=
  ["analyze", "compare", "evaluate", "synthesize", "critique",
   "explain", "derive", "prove", "optimize", "debug"]

/-- `ModelRouter._estimate_complexity`: base 5, +2 above 1000 characters,
-1 below 100, +1 per matched keyword, clamped to [1, 10]. -/
def estimate_complexity (query : String) : Int :=
  let base : Int := 5
  let c1 : Int :=
    if 1000 < query.length then base + 2
    else if query.length < 100 then base - 1
    else base
  let c2 : Int := complexKeywords.foldl
    (fun acc kw => if containsKeyword query kw then acc + 1 else acc) c1
  max 1 (min 10 c2)

/-- Errors raised by the router: `_select_model`'s
`RuntimeError("No language models are available")` and `generate`'s
`RuntimeError("All models failed ...")` carrying the original error text. -/
inductive RouterError where
  | noModelAvailable
  | allModelsFailed (orig : String)
deriving DecidableEq

/-- `ModelRouter._select_model`. -/
def select_model (r : ModelRouter) (query : String) : Except RouterError ModelW :=
  if !r.primary_model.is_available then
    match r.fallback_models with
    | [] => .error .noModelAvailable
    | m :: _ => .ok m
  else
    let complexity := estimate_complexity query
    let token_count := r.primary_model.get_token_count query
    if r.complexity_threshold ≤ complexity || token_count ≤ r.token_threshold then
      .ok r.primary_model
    else
      match r.fallback_models with
      | [] => .ok r.primary_model
      | m :: _ => .ok m

/-- The fallback loop of `ModelRouter.generate`, instrumented with the list
of model names actually attempted: each fallback whose name differs from the
failed model's and which is available is tried in order; the first success
is returned; if none succeeds the original error is re-raised. -/
def cascade (query failedName origErr : String) :
    List ModelW → List String × Except RouterError String
  | [] => ([], .error (.allModelsFailed origErr))
  | f :: rest =>
    if f.model_name != failedName && f.is_available then
      match f.generate query with
      | .ok t => ([f.model_name], .ok t)
      | .error _ =>
        let res := cascade query failedName origErr rest
        (f.model_name :: res.1, res.2)
    else cascade query failedName origErr rest

/-- `ModelRouter.generate`, instrumented with the trace of attempted model
names (selection failure propagates; otherwise the selected model is tried
once, then the fallback loop runs). -/
def generateT (r : ModelRouter) (query : String) :
    List String × Except RouterError String :=
  match select_model r query with
  | .error _ => ([], .error .noModelAvailable)
  | .ok m =>
    match m.generate query with
    | .ok t => ([m.model_name], .ok t)
    | .error e =>
      let res := cascade query m.model_name e r.fallback_models
      (m.model_name :: res.1, res.2)

/-- The value returned (or the exception raised) by `ModelRouter.generate`. -/
def generate (r : ModelRouter) (query : String) : Except RouterError String :=
  (generateT r query).2

/-- The ordered list of model names whose `generate` was attempted. -/
def generateTrace (r : ModelRouter) (query : String) : List String :=
  (generateT r query).1

/-- The fallbacks eligible to be attempted after `failedName` failed. -/
def eligibleFallbacks (r : ModelRouter) (failedName : String) : List ModelW :=
  r.fallback_models.filter (fun f => f.model_name != failedName && f.is_available)

/-- The chunk `"\n[Switching to fallback model: <name>]\n"` yielded by
`generate_stream` before a fallback's chunks. -/
def fallbackNotice (name : String) : String :=
  "\n[Switching to fallback model: " ++ name ++ "]\n"

/-- The terminal chunk yielded by `generate_stream` when every model fails. -/
def streamErrSentinel : String :=
  "\n[Error: All models failed to generate a streaming response. Please try again later.]\n"

/-- The fallback loop of `ModelRouter.generate_stream`: for each eligible
fallback the notice chunk is yielded, then the fallback's chunks; on success
the generator returns, on failure the already-yielded chunks stay with the
consumer and the loop continues; after the loop the sentinel is yielded. -/
def streamCascade (query failedName : String) : List ModelW → List String
  | [] => [streamErrSentinel]
  | f :: rest =>
    if f.model_name != failedName && f.is_available then
      let s := f.generate_stream query
      if s.2 then fallbackNotice f.model_name :: s.1
      else (fallbackNotice f.model_name :: s.1) ++ streamCascade query failedName rest
    else streamCascade query failedName rest

/-- `ModelRouter.generate_stream`: the full chunk sequence delivered to the
consumer, or the selection exception (which is raised outside the
`try`/`except` and therefore reaches the consumer). -/
def generate_stream (r : ModelRouter) (query : String) :
    Except RouterError (List String) :=
  match select_model r query with
  | .error _ => .error .noModelAvailable
  | .ok m =>
    let s := m.generate_stream query
    if s.2 then .ok s.1
    else .ok (s.1 ++ streamCascade query m.model_name r.fallback_models)

/-! ## Conversation data model -/

/-- Free-form metadata maps (JSON objects with string values in the model;
`json.dumps`/`json.loads` round-trip is the identity on this shape). -/
abbrev Meta := List (String × String)

/-- Modelled from the spec: `Message` of `app.memory.conversation` (not
under `src/`): role, content, creation timestamp (an abstract chronological
instant; `isoformat`/`fromisoformat` is an order-preserving encoding),
metadata map, unique message identifier. -/
structure Message where
  message_id : String
  role : String
  content : String
  timestamp : Nat
  metadata : Meta
deriving DecidableEq

/-- Modelled from the spec: `Conversation` of `app.memory.conversation`
(not under `src/`): identifier, title, ordered message sequence, timestamps,
metadata map. -/
structure Conversation where
  conversation_id : String
  title : String
  messages : List Message
  created_at : Nat
  updated_at : Nat
  metadata : Meta
deriving DecidableEq

/-! ## Persistence state (`persistence.py`) -/

/-- A row of the SQLite `conversations` table. -/
structure ConvRow where
  conversation_id : String
  title : String
  metadata : Meta
  created_at : Nat
  updated_at : Nat
deriving DecidableEq

/-- A row of the SQLite `messages` table. -/
structure MsgRow where
  message_id : String
  conversation_id : String
  role : String
  content : String
  timestamp : Nat
  metadata : Meta
deriving DecidableEq

/-- A row of the SQLite `episodic_memory` table. -/
structure EpisodicRow where
  memory_id : String
  user_id : String
  memory_type : String
  content : String
  timestamp : Nat
  metadata : Meta
deriving DecidableEq

/-- A document of a vector-store collection. -/
structure VecDoc where
  id : String
  text : String
  metadata : Meta
deriving DecidableEq

/-- The combined storage state seen by `MemoryPersistence`: the three SQLite
tables, the two vector collections, and a counter feeding `uuid.uuid4`
generation. -/
structure Db where
  conversations : List ConvRow
  messages : List MsgRow
  episodic : List EpisodicRow
  vknowledge : List VecDoc
  vepisodic : List VecDoc
  ctr : Nat
deriving DecidableEq

/-- SQLite `INSERT OR REPLACE`: replace the (first) row with the same
primary key in place, otherwise append. -/
def upsert {α : Type} (key : α → String) (row : α) : List α → List α
  | [] => [row]
  | r :: rs => if key r = key row then row :: rs else r :: upsert key row rs

/-- The `messages` row written by `save_conversation` for one message. -/
def msgRowOf (cid : String) (m : Message) : MsgRow :=
  ⟨m.message_id, cid, m.role, m.content, m.timestamp, m.metadata⟩

/-- The `conversations` row written by `save_conversation`. -/
def convRowOf (c : Conversation) : ConvRow :=
  ⟨c.conversation_id, c.title, c.metadata, c.created_at, c.updated_at⟩

/-- `MemoryPersistence.save_conversation` (success path; a raised database
error would leave the state unchanged and return `False`, which no claim
exercises): `INSERT OR REPLACE` the conversation row, then each message row
in order, then commit. -/
def save_conversation (s : Db) (c : Conversation) : Db :=
  { s with
    conversations := upsert (fun r => r.conversation_id) (convRowOf c) s.conversations
    messages := c.messages.foldl
      (fun t m => upsert (fun r => r.message_id) (msgRowOf c.conversation_id m) t)
      s.messages }

/-- The `Message` reconstructed from a loaded row. -/
def rowToMessage (r : MsgRow) : Message :=
  ⟨r.message_id, r.role, r.content, r.timestamp, r.metadata⟩

/-- `MemoryPersistence.load_conversation`: `None` for an unknown id,
otherwise the conversation row plus its messages
`ORDER BY timestamp` (modelled as a sort by the timestamp instant). -/
def load_conversation (s : Db) (cid : String) : Option Conversation :=
  match s.conversations.find? (fun r => r.conversation_id == cid) with
  | none => none
  | some row =>
    let rows := s.messages.filter (fun m => m.conversation_id == cid)
    let sorted := List.insertionSort (fun a b => a.timestamp ≤ b.timestamp) rows
    some
      { conversation_id := row.conversation_id
        title := row.title
        messages := sorted.map rowToMessage
        created_at := row.created_at
        updated_at := row.updated_at
        metadata := row.metadata }

/-- Number of stored message rows belonging to a conversation. -/
def messageCount (s : Db) (cid : String) : Nat :=
  (s.messages.filter (fun m => m.conversation_id == cid)).length

/-! ## Dual-write paths (`persistence.py`) -/

/-- Which store a write was attempted against, in attempt order. -/
inductive WriteEvent where
  | structured
  | vector
deriving DecidableEq

/-- Failure-injection environment for the persistence layer: whether a
vector client was configured, whether the SQLite insert/commit succeeds,
whether the vector insert succeeds, the `uuid.uuid4` supply and the
`datetime.utcnow` clock. -/
structure PersistEnv where
  hasVectorClient : Bool
  sqliteOk : Bool
  vectorOk : Bool
  genId : Nat → String
  now : Nat

/-- `MemoryPersistence.add_episodic_memory`: generate an id, insert and
commit into the SQLite `episodic_memory` table, then mirror into the
`episodic_memory` vector collection if a client is configured; any raised
error is caught and turns the result into `None`, without undoing the
already-committed SQLite insert.  Returns (result, new state, attempted
write events in order). -/
def add_episodic_memory (env : PersistEnv) (s : Db)
    (user_id memory_type content : String) (metadata : Meta) :
    Option String × Db × List WriteEvent :=
  let memory_id := env.genId s.ctr
  let s0 := { s with ctr := s.ctr + 1 }
  if env.sqliteOk then
    let row : EpisodicRow := ⟨memory_id, user_id, memory_type, content, env.now, metadata⟩
    let s1 := { s0 with episodic := s0.episodic ++ [row] }
    if env.hasVectorClient then
      if env.vectorOk then
        (some memory_id,
         { s1 with vepisodic := s1.vepisodic ++ [⟨memory_id, content, metadata⟩] },
         [.structured, .vector])
      else
        (none, s1, [.structured, .vector])
    else
      (some memory_id, s1, [.structured])
  else
    (none, s0, [.structured])

/-- `MemoryPersistence.add_to_knowledge_base`: with no vector client the
call returns `[]`; otherwise the documents are inserted into the
`knowledge` vector collection only (no SQLite write occurs on this path),
and a raised error is caught and turns the result into `[]`. -/
def add_to_knowledge_base (env : PersistEnv) (s : Db)
    (texts : List String) (metadata : List Meta) (ids : Option (List String)) :
    List String × Db × List WriteEvent :=
  if !env.hasVectorClient then
    ([], s, [])
  else
    let usedIds := match ids with
      | some l => l
      | none => (List.range texts.length).map (fun i => env.genId (s.ctr + i))
    if env.vectorOk then
      let docs := List.zipWith (fun p md => (⟨p.1, p.2, md⟩ : VecDoc))
        (usedIds.zip texts) metadata
      (usedIds, { s with vknowledge := s.vknowledge ++ docs }, [.vector])
    else
      ([], s, [.vector])

/-! ## Context retrieval (`retrieval.py`) -/

/-- One extracted learning candidate, the dictionary appended by
`ContextRetrieval.extract_learning` (its metadata dictionary flattened into
the metadata map shape). -/
structure Learning where
  user_id : String
  memory_type : String
  content : String
  metadata : Meta
deriving DecidableEq

/-- The apostrophe character, used to spell the `"I'm"` keyword. -/
def apos : Char := Char.ofNat 39

/-- The preference keyword list of `extract_learning`. -/
def preference_keywords : List String :=
  ["prefer", "like", "favorite", "hate", "dislike"]

/-- The fact keyword list of `extract_learning`; note that three entries
contain a capital `I` while they are tested against lowercased content. -/
def fact_keywords : List String :=
  ["my name is", "I am", String.mk ['I', apos, 'm'], "I live", "my job", "my email"]

/-- The metadata dictionary attached to a learning. -/
def learningMeta (cid mid kw : String) : Meta :=
  [("source", "conversation"), ("conversation_id", cid),
   ("message_id", mid), ("keyword", kw)]

/-- The preference learnings appended for one message: the first preference
keyword contained in the lowercased content wins (`break`), at most one. -/
def prefLearnings (uid cid : String) (m : Message) : List Learning :=
  match preference_keywords.find? (fun kw => containsSub (String.mk (lowerData m.content)) kw) with
  | some kw => [⟨uid, "preference", m.content, learningMeta cid m.message_id kw⟩]
  | none => []

/-- The fact learnings appended for one message, same shape. -/
def factLearnings (uid cid : String) (m : Message) : List Learning :=
  match fact_keywords.find? (fun kw => containsSub (String.mk (lowerData m.content)) kw) with
  | some kw => [⟨uid, "fact", m.content, learningMeta cid m.message_id kw⟩]
  | none => []

/-- The learnings contributed by a single turn: non-`user` roles are
skipped (`continue`); a user turn contributes its preference learning (if
any) then its fact learning (if any). -/
def msgLearnings (uid cid : String) (m : Message) : List Learning :=
  if m.role == "user" then prefLearnings uid cid m ++ factLearnings uid cid m
  else []

/-- The accumulation loop of `extract_learning` over the message list. -/
def extractAux (uid cid : String) : List Message → List Learning
  | [] => []
  | m :: rest => msgLearnings uid cid m ++ extractAux uid cid rest

/-- `ContextRetrieval.extract_learning`: pure scan of the conversation;
nothing is persisted. -/
def extract_learning (c : Conversation) (uid : String) : List Learning :=
  extractAux uid c.conversation_id c.messages

/-- `ContextRetrieval.save_learnings`: persist each candidate through
`add_episodic_memory`, keeping the ids of the writes that reported success
(a `None` result is silently dropped). -/
def save_learnings (env : PersistEnv) (s : Db) :
    List Learning → List String × Db
  | [] => ([], s)
  | l :: rest =>
    let r := add_episodic_memory env s l.user_id l.memory_type l.content l.metadata
    let res := save_learnings env r.2.1 rest
    match r.1 with
    | some mid => (mid :: res.1, res.2)
    | none => res

/-! ## Lemmas about the complexity heuristic -/

/-- The length adjustment applied by `_estimate_complexity`. -/
def lengthAdj (n : Nat) : Int :=
  if 1000 < n then 2 else if n < 100 then -1 else 0

/-- Number of reasoning keywords matched by a query. -/
def keywordMatchCount (q : String) : Nat :=
  complexKeywords.countP (fun kw => containsKeyword q kw)

theorem foldl_count_if {α : Type} (p : α → Bool) (l : List α) (a : Int) :
    l.foldl (fun acc x => if p x then acc + 1 else acc) a = a + l.countP p := by
  induction l generalizing a with
  | nil => simp
  | cons x xs ih =>
    by_cases h : p x
    · simp only [List.foldl_cons, h, if_true, ih, List.countP_cons]
      push_cast
      ring
    · simp only [List.foldl_cons, h, if_false, ih, List.countP_cons]
      norm_num

theorem estimate_complexity_eq (q : String) :
    estimate_complexity q =
      max 1 (min 10 (5 + lengthAdj q.length + (keywordMatchCount q : Int))) := by
  simp only [estimate_complexity, lengthAdj, keywordMatchCount, foldl_count_if]
  split_ifs <;> ring_nf

/-- Claim C9: for every input string, regardless of its length or how many
keyword matches it contains, `_estimate_complexity` returns an integer in
the closed range [1, 10]. -/
theorem C9_complexity_clamp (q : String) :
    1 ≤ estimate_complexity q ∧ estimate_complexity q ≤ 10 := by
  rw [estimate_complexity_eq]
  constructor <;> omega

/-- Claim C5: every query longer than 1000 characters with no word-boundary
case-insensitive match of any reasoning keyword scores exactly 7 (base 5
plus the +2 length bonus); and holding the query's length class fixed, the
score is monotonically non-decreasing in the number of keyword matches. -/
theorem C5_complexity_value_and_monotonicity :
    (∀ q : String, 1000 < q.length →
      complexKeywords.all (fun kw => !containsKeyword q kw) = true →
      estimate_complexity q = 7) ∧
    (∀ q1 q2 : String, lengthAdj q1.length = lengthAdj q2.length →
      keywordMatchCount q1 ≤ keywordMatchCount q2 →
      estimate_complexity q1 ≤ estimate_complexity q2) := by
  constructor
  · intro q hlen hkw
    rw [estimate_complexity_eq]
    have hc : keywordMatchCount q = 0 := by
      unfold keywordMatchCount
      rw [List.countP_eq_zero]
      intro kw hkwmem
      have := List.all_eq_true.mp hkw kw hkwmem
      simpa using this
    have hl : lengthAdj q.length = 2 := by
      unfold lengthAdj
      simp [hlen]
    rw [hc, hl]
    norm_num
  · intro q1 q2 hlen hcnt
    rw [estimate_complexity_eq, estimate_complexity_eq, hlen]
    omega

/-- A 1001-character query with no reasoning keyword. -/
def longPlainQuery : String := String.mk (List.replicate 1001 'a')

set_option maxRecDepth 40000 in
/-- Witness for C5 at concrete inputs. -/
theorem C5_complexity_value_and_monotonicity_witness :
    estimate_complexity longPlainQuery = 7 ∧
    estimate_complexity "short" ≤ estimate_complexity "Analyze this" := by
  constructor
  · exact C5_complexity_value_and_monotonicity.1 longPlainQuery (by decide) (by decide)
  · exact C5_complexity_value_and_monotonicity.2 "short" "Analyze this" (by decide) (by decide)

/-! ## Sample wrappers used by the witnesses -/

/-- An available primary whose generation raises. -/
def primaryFailing : ModelW :=
  ⟨"gpt-4", true, fun _ => 10, fun _ => .error "primary boom", fun _ => (["p1"], false)⟩

/-- An available fallback that succeeds. -/
def fallbackOk : ModelW :=
  ⟨"gpt-3.5-turbo", true, fun _ => 10, fun _ => .ok "FALLBACK-TEXT", fun _ => (["f1", "f2"], true)⟩

/-- An available fallback that raises. -/
def fallbackBad : ModelW :=
  ⟨"llama", true, fun _ => 10, fun _ => .error "llama boom", fun _ => (["l1"], false)⟩

/-- An unavailable wrapper. -/
def unavailableModel : ModelW :=
  ⟨"mistral", false, fun _ => 10, fun _ => .ok "never", fun _ => ([], true)⟩

/-- An unavailable primary. -/
def primaryUnavailable : ModelW :=
  ⟨"gpt-4", false, fun _ => 10, fun _ => .ok "unused", fun _ => ([], true)⟩

/-! ## Claims C4 and C8: model selection -/

/-- Claim C4: with an available primary, `_select_model` returns the
primary when `complexity >= complexity_threshold` or
`token_count <= token_threshold`, otherwise the first fallback if any
exists, else the primary; in particular with threshold 7 every query of
complexity at least 7 selects the primary regardless of token count. -/
theorem C4_select_model_rule (r : ModelRouter) (q : String)
    (hav : r.primary_model.is_available = true) :
    ((r.complexity_threshold ≤ estimate_complexity q ∨
        r.primary_model.get_token_count q ≤ r.token_threshold) →
      select_model r q = .ok r.primary_model) ∧
    (estimate_complexity q < r.complexity_threshold →
      r.token_threshold < r.primary_model.get_token_count q →
      select_model r q = .ok (r.fallback_models.headD r.primary_model)) ∧
    (r.complexity_threshold = 7 → 7 ≤ estimate_complexity q →
      select_model r q = .ok r.primary_model) := by
  unfold select_model
  rw [hav]
  simp only [Bool.not_true, Bool.false_eq_true, if_false]
  refine ⟨fun h => ?_, fun h1 h2 => ?_, fun h7 hc => ?_⟩
  · rw [if_pos]
    simpa using h
  · rw [if_neg]
    · cases r.fallback_models <;> simp
    · simp only [Bool.or_eq_true, decide_eq_true_eq]
      omega
  · rw [if_pos]
    simp only [Bool.or_eq_true, decide_eq_true_eq]
    left
    omega

/-- Witness for C4 at a concrete router and queries. -/
theorem C4_select_model_rule_witness :
    select_model (mkModelRouter primaryFailing [fallbackOk] 7 2000) "hi" =
      .ok primaryFailing ∧
    select_model (mkModelRouter primaryFailing [fallbackOk] 7 0) "hi" =
      .ok fallbackOk ∧
    select_model (mkModelRouter primaryFailing [fallbackOk] 7 0)
        "Analyze, compare, evaluate and critique this; then prove and optimize it." =
      .ok primaryFailing := by
  refine ⟨?_, ?_, ?_⟩
  · exact (C4_select_model_rule _ "hi" rfl).1 (Or.inr (by decide))
  · exact ((C4_select_model_rule _ "hi" rfl).2).1 (by decide) (by decide)
  · exact ((C4_select_model_rule _ _ rfl).2).2 rfl (by decide)

theorem select_model_isOk_of_available (r : ModelRouter) (q : String)
    (hav : r.primary_model.is_available = true) :
    ∃ m, select_model r q = .ok m := by
  unfold select_model
  rw [hav]
  simp only [Bool.not_true, Bool.false_eq_true, if_false]
  split
  · exact ⟨_, rfl⟩
  · split
    · exact ⟨_, rfl⟩
    · exact ⟨_, rfl⟩

theorem select_model_unavailable (r : ModelRouter) (q : String)
    (hp : r.primary_model.is_available = false) :
    select_model r q = (match r.fallback_models with
      | [] => .error .noModelAvailable
      | m :: _ => .ok m) := by
  unfold select_model
  rw [hp]
  rfl

/-- Claim C8: the fallback list is filtered to the available models at
construction time; with an unavailable primary, `_select_model` returns the
first (available) fallback, and raises `NoModelAvailable` exactly when no
fallback exists — the only way selection itself fails. -/
theorem C8_no_model_available (p : ModelW) (fbs : List ModelW)
    (cth : Int) (tth : Nat) (q : String) :
    (mkModelRouter p fbs cth tth).fallback_models =
        fbs.filter (fun m => m.is_available) ∧
    (p.is_available = false →
      ∀ f rest, fbs.filter (fun m => m.is_available) = f :: rest →
        select_model (mkModelRouter p fbs cth tth) q = .ok f) ∧
    (p.is_available = false → fbs.filter (fun m => m.is_available) = [] →
      select_model (mkModelRouter p fbs cth tth) q = .error .noModelAvailable) ∧
    (∀ err, select_model (mkModelRouter p fbs cth tth) q = .error err →
      p.is_available = false ∧ fbs.filter (fun m => m.is_available) = [] ∧
        err = .noModelAvailable) := by
  have hprim : (mkModelRouter p fbs cth tth).primary_model = p := rfl
  have hfall : (mkModelRouter p fbs cth tth).fallback_models =
      fbs.filter (fun m => m.is_available) := rfl
  refine ⟨rfl, fun hp f rest hf => ?_, fun hp hf => ?_, fun err herr => ?_⟩
  · rw [select_model_unavailable _ q (by rw [hprim]; exact hp), hfall, hf]
  · rw [select_model_unavailable _ q (by rw [hprim]; exact hp), hfall, hf]
  · cases hpa : p.is_available
    · rw [select_model_unavailable _ q (by rw [hprim]; exact hpa), hfall] at herr
      cases hfil : fbs.filter (fun m => m.is_available) with
      | nil =>
        rw [hfil] at herr
        refine ⟨rfl, rfl, ?_⟩
        cases herr
        rfl
      | cons f rest =>
        rw [hfil] at herr
        cases herr
    · obtain ⟨m, hm⟩ := select_model_isOk_of_available (mkModelRouter p fbs cth tth) q
        (by rw [hprim]; exact hpa)
      rw [hm] at herr
      cases herr

/-- Witness for C8 at concrete routers. -/
theorem C8_no_model_available_witness :
    (mkModelRouter primaryUnavailable [unavailableModel, fallbackOk] 7 2000).fallback_models =
        [fallbackOk] ∧
    select_model (mkModelRouter primaryUnavailable [unavailableModel, fallbackOk] 7 2000) "hi" =
        .ok fallbackOk ∧
    select_model (mkModelRouter primaryUnavailable [unavailableModel] 7 2000) "hi" =
        .error .noModelAvailable := by
  refine ⟨?_, ?_, ?_⟩
  · exact (C8_no_model_available primaryUnavailable [unavailableModel, fallbackOk] 7 2000 "hi").1
  · exact ((C8_no_model_available primaryUnavailable [unavailableModel, fallbackOk] 7 2000 "hi").2).1
      rfl fallbackOk [] (by rfl)
  · exact (((C8_no_model_available primaryUnavailable [unavailableModel] 7 2000 "hi").2).2).1
      rfl (by rfl)

/-! ## Claim C1: cascading fallback in `generate` -/

theorem cascade_all_fail (q n e : String) (l : List ModelW)
    (h : ∀ g ∈ l.filter (fun f => f.model_name != n && f.is_available),
      ∃ err, g.generate q = .error err) :
    cascade q n e l =
      ((l.filter (fun f => f.model_name != n && f.is_available)).map
        (fun f => f.model_name),
       .error (.allModelsFailed e)) := by
  induction l with
  | nil => rfl
  | cons x rest ih =>
    by_cases hg : (x.model_name != n && x.is_available) = true
    · have hx : x ∈ (x :: rest).filter (fun f => f.model_name != n && f.is_available) := by
        simp [List.filter_cons, hg]
      obtain ⟨err, herr⟩ := h x hx
      have hrest : ∀ g ∈ rest.filter (fun f => f.model_name != n && f.is_available),
          ∃ err, g.generate q = .error err := by
        intro g hgmem
        exact h g (by simp [List.filter_cons, hg, hgmem])
      unfold cascade
      rw [hg, if_pos rfl, herr, ih hrest]
      simp [List.filter_cons, hg]
    · have hrest : ∀ g ∈ rest.filter (fun f => f.model_name != n && f.is_available),
          ∃ err, g.generate q = .error err := by
        intro g hgmem
        refine h g ?_
        simp only [List.filter_cons]
        rw [if_neg hg]
        exact hgmem
      unfold cascade
      rw [if_neg hg, ih hrest]
      congr 1
      simp only [List.filter_cons]
      rw [if_neg hg]

theorem cascade_first_success (q n e t : String) (l pre post : List ModelW) (f : ModelW)
    (hfil : l.filter (fun g => g.model_name != n && g.is_available) = pre ++ f :: post)
    (hpre : ∀ g ∈ pre, ∃ err, g.generate q = .error err)
    (hok : f.generate q = .ok t) :
    cascade q n e l = (pre.map (fun g => g.model_name) ++ [f.model_name], .ok t) := by
  induction l generalizing pre with
  | nil =>
    cases pre <;> simp at hfil
  | cons x rest ih =>
    by_cases hg : (x.model_name != n && x.is_available) = true
    · rw [List.filter_cons, if_pos hg] at hfil
      cases pre with
      | nil =>
        simp only [List.nil_append] at hfil
        have hx : x = f := (List.cons_eq_cons.mp hfil).1
        unfold cascade
        rw [hg, if_pos rfl, hx, hok]
        simp
      | cons y pre' =>
        have hxy : x = y := (List.cons_eq_cons.mp hfil).1
        have htail : rest.filter (fun g => g.model_name != n && g.is_available) =
            pre' ++ f :: post := (List.cons_eq_cons.mp hfil).2
        obtain ⟨err, herr⟩ := hpre y (List.mem_cons_self y pre')
        have hpre' : ∀ g ∈ pre', ∃ err, g.generate q = .error err :=
          fun g hgmem => hpre g (List.mem_cons_of_mem y hgmem)
        unfold cascade
        rw [hg, if_pos rfl, hxy, herr, ih pre' htail hpre']
        simp
    · rw [List.filter_cons, if_neg hg] at hfil
      unfold cascade
      rw [if_neg hg]
      exact ih pre hfil hpre

theorem mem_eligible_ne {r : ModelRouter} {n : String} {g : ModelW}
    (hg : g ∈ eligibleFallbacks r n) : g.model_name ≠ n := by
  have := (List.mem_filter.mp hg).2
  have hbne : (g.model_name != n) = true := by
    cases hand : (g.model_name != n) <;> simp [hand] at this ⊢
  exact bne_iff_ne.mp hbne

/-- Claim C1: after selecting a model, `generate` attempts it; if that
attempt raises, the fallbacks are attempted in list order, skipping any
whose name equals the failed model's and any unavailable one; the first
success is returned without attempting further models (and the selected
model is attempted exactly once); if every attempted model fails, the error
carrying the original error text is raised. -/
theorem C1_generate_cascading_fallback (r : ModelRouter) (q : String)
    (m : ModelW) (e : String)
    (hsel : select_model r q = .ok m)
    (hfail : m.generate q = .error e) :
    (∀ t pre f post,
      eligibleFallbacks r m.model_name = pre ++ f :: post →
      (∀ g ∈ pre, ∃ err, g.generate q = .error err) →
      f.generate q = .ok t →
      generate r q = .ok t ∧
      generateTrace r q =
        m.model_name :: (pre.map (fun g => g.model_name) ++ [f.model_name]) ∧
      (generateTrace r q).count m.model_name = 1) ∧
    ((∀ g ∈ eligibleFallbacks r m.model_name, ∃ err, g.generate q = .error err) →
      generate r q = .error (.allModelsFailed e)) := by
  have hT : generateT r q =
      (m.model_name :: (cascade q m.model_name e r.fallback_models).1,
       (cascade q m.model_name e r.fallback_models).2) := by
    unfold generateT
    rw [hsel]
    dsimp only
    rw [hfail]
  constructor
  · intro t pre f post hfil hpre hok
    have hc := cascade_first_success q m.model_name e t r.fallback_models pre post f
      hfil hpre hok
    refine ⟨?_, ?_, ?_⟩
    · unfold generate
      rw [hT, hc]
    · unfold generateTrace
      rw [hT, hc]
    · unfold generateTrace
      rw [hT, hc]
      simp only [List.count_cons_self]
      have hz : (pre.map (fun g => g.model_name) ++ [f.model_name]).count m.model_name = 0 := by
        rw [List.count_eq_zero]
        intro hmem
        rcases List.mem_append.mp hmem with hl | hr
        · obtain ⟨g, hgpre, hgname⟩ := List.mem_map.mp hl
          have hgel : g ∈ eligibleFallbacks r m.model_name := by
            rw [hfil]
            exact List.mem_append.mpr (Or.inl hgpre)
          exact mem_eligible_ne hgel (by rw [hgname])
        · have hfel : f ∈ eligibleFallbacks r m.model_name := by
            rw [hfil]
            exact List.mem_append.mpr (Or.inr (List.mem_cons_self f post))
          have : m.model_name = f.model_name := by simpa using hr
          exact mem_eligible_ne hfel this.symm
      rw [hz]
  · intro hall
    have hc := cascade_all_fail q m.model_name e r.fallback_models hall
    unfold generate
    rw [hT, hc]

/-- Witness for C1: an available primary that raises and exactly one
distinct available fallback that succeeds: the fallback's text is returned,
the primary is attempted exactly once; and with only failing fallbacks the
original error is re-raised. -/
theorem C1_generate_cascading_fallback_witness :
    generate (mkModelRouter primaryFailing [fallbackOk] 7 2000) "hi" = .ok "FALLBACK-TEXT" ∧
    generateTrace (mkModelRouter primaryFailing [fallbackOk] 7 2000) "hi" =
      ["gpt-4", "gpt-3.5-turbo"] ∧
    (generateTrace (mkModelRouter primaryFailing [fallbackOk] 7 2000) "hi").count "gpt-4" = 1 ∧
    generate (mkModelRouter primaryFailing [fallbackBad] 7 2000) "hi" =
      .error (.allModelsFailed "primary boom") := by
  have h1 := C1_generate_cascading_fallback
    (mkModelRouter primaryFailing [fallbackOk] 7 2000) "hi" primaryFailing "primary boom"
    rfl rfl
  have h2 := C1_generate_cascading_fallback
    (mkModelRouter primaryFailing [fallbackBad] 7 2000) "hi" primaryFailing "primary boom"
    rfl rfl
  obtain ⟨ha, hb, hcnt⟩ := h1.1 "FALLBACK-TEXT" [] fallbackOk [] rfl (by simp) rfl
  refine ⟨ha, hb, hcnt, ?_⟩
  refine h2.2 ?_
  intro g hg
  have : g = fallbackBad := by
    simpa [eligibleFallbacks, mkModelRouter, fallbackBad, primaryFailing] using hg
  rw [this]
  exact ⟨"llama boom", rfl⟩

/-! ## Claim C7: streaming error channel -/

/-- The chunks delivered while a list of fallbacks is attempted and each
fails: for each one the transition notice, then its partial chunks. -/
def attemptedChunks (q : String) : List ModelW → List String
  | [] => []
  | g :: gs =>
    (fallbackNotice g.model_name :: (g.generate_stream q).1) ++ attemptedChunks q gs

theorem streamCascade_all_fail (q n : String) (l : List ModelW)
    (h : ∀ g ∈ l.filter (fun f => f.model_name != n && f.is_available),
      (g.generate_stream q).2 = false) :
    streamCascade q n l =
      attemptedChunks q (l.filter (fun f => f.model_name != n && f.is_available)) ++
        [streamErrSentinel] := by
  induction l with
  | nil => rfl
  | cons x rest ih =>
    by_cases hg : (x.model_name != n && x.is_available) = true
    · have hx : (x.generate_stream q).2 = false :=
        h x (by simp [List.filter_cons, hg])
      have hrest : ∀ g ∈ rest.filter (fun f => f.model_name != n && f.is_available),
          (g.generate_stream q).2 = false := by
        intro g hgmem
        exact h g (by simp [List.filter_cons, hg, hgmem])
      unfold streamCascade
      rw [hg, if_pos rfl]
      dsimp only
      rw [hx]
      simp only [Bool.false_eq_true, if_false, ih hrest, List.filter_cons, hg, if_pos rfl]
      simp [attemptedChunks]
    · have hrest : ∀ g ∈ rest.filter (fun f => f.model_name != n && f.is_available),
          (g.generate_stream q).2 = false := by
        intro g hgmem
        refine h g ?_
        simp only [List.filter_cons]
        rw [if_neg hg]
        exact hgmem
      unfold streamCascade
      rw [if_neg hg, ih hrest]
      congr 2
      simp only [List.filter_cons]
      rw [if_neg hg]

theorem streamCascade_first_success (q n : String) (l pre post : List ModelW)
    (f : ModelW) (fch : List String)
    (hfil : l.filter (fun g => g.model_name != n && g.is_available) = pre ++ f :: post)
    (hpre : ∀ g ∈ pre, (g.generate_stream q).2 = false)
    (hok : f.generate_stream q = (fch, true)) :
    streamCascade q n l =
      attemptedChunks q pre ++ fallbackNotice f.model_name :: fch := by
  induction l generalizing pre with
  | nil => cases pre <;> simp at hfil
  | cons x rest ih =>
    by_cases hg : (x.model_name != n && x.is_available) = true
    · rw [List.filter_cons, if_pos hg] at hfil
      cases pre with
      | nil =>
        simp only [List.nil_append] at hfil
        have hx : x = f := (List.cons_eq_cons.mp hfil).1
        unfold streamCascade
        rw [hg, if_pos rfl]
        dsimp only
        rw [hx, hok]
        simp [attemptedChunks]
      | cons y pre' =>
        have hxy : x = y := (List.cons_eq_cons.mp hfil).1
        have htail : rest.filter (fun g => g.model_name != n && g.is_available) =
            pre' ++ f :: post := (List.cons_eq_cons.mp hfil).2
        have hyfail : (y.generate_stream q).2 = false := hpre y (List.mem_cons_self y pre')
        have hpre' : ∀ g ∈ pre', (g.generate_stream q).2 = false :=
          fun g hgmem => hpre g (List.mem_cons_of_mem y hgmem)
        unfold streamCascade
        rw [hg, if_pos rfl]
        dsimp only
        rw [hxy, hyfail]
        simp only [Bool.false_eq_true, if_false, ih pre' htail hpre']
        simp [attemptedChunks]
    · rw [List.filter_cons, if_neg hg] at hfil
      unfold streamCascade
      rw [if_neg hg]
      exact ih pre hfil hpre

/-- Counterexample to claim C7 as stated: with an unavailable primary and
no fallbacks, `generate_stream` raises `_select_model`'s error to its
consumer (the selection call is outside the `try`), so it is not true that
it never raises once invoked. -/
theorem C7_stream_raises_counterexample :
    generate_stream (mkModelRouter primaryUnavailable [] 7 2000) "hello" =
      .error .noModelAvailable := rfl

/-- Claim C7 (amended): once model selection succeeds, `generate_stream`
never raises to its consumer; when it falls back after a failed stream it
emits the transition notice chunk before the fallback's chunks, and if
every model fails it ends with the terminal sentinel error-chunk instead of
raising. -/
theorem C7_generate_stream_error_channel (r : ModelRouter) (q : String)
    (m : ModelW) (hsel : select_model r q = .ok m) :
    (∃ chunks, generate_stream r q = .ok chunks) ∧
    (∀ pch, m.generate_stream q = (pch, false) →
      (∀ pre f post fch,
        eligibleFallbacks r m.model_name = pre ++ f :: post →
        (∀ g ∈ pre, (g.generate_stream q).2 = false) →
        f.generate_stream q = (fch, true) →
        generate_stream r q =
          .ok (pch ++ (attemptedChunks q pre ++ fallbackNotice f.model_name :: fch))) ∧
      ((∀ g ∈ eligibleFallbacks r m.model_name, (g.generate_stream q).2 = false) →
        generate_stream r q =
          .ok (pch ++ (attemptedChunks q (eligibleFallbacks r m.model_name) ++
            [streamErrSentinel])))) := by
  have hbase : generate_stream r q =
      (if (m.generate_stream q).2 then .ok (m.generate_stream q).1
       else .ok ((m.generate_stream q).1 ++ streamCascade q m.model_name r.fallback_models)) := by
    unfold generate_stream
    rw [hsel]
  constructor
  · rw [hbase]
    cases hs : (m.generate_stream q).2
    · simp only [Bool.false_eq_true, if_false]
      exact ⟨_, rfl⟩
    · simp only [if_true]
      exact ⟨_, rfl⟩
  · intro pch hp
    constructor
    · intro pre f post fch hfil hpre hok
      rw [hbase, hp]
      simp only [Bool.false_eq_true, if_false]
      rw [streamCascade_first_success q m.model_name r.fallback_models pre post f fch
        hfil hpre hok]
    · intro hall
      rw [hbase, hp]
      simp only [Bool.false_eq_true, if_false]
      rw [streamCascade_all_fail q m.model_name r.fallback_models hall]
      rfl

/-- Witness for the amended C7 at concrete routers. -/
theorem C7_generate_stream_error_channel_witness :
    generate_stream (mkModelRouter primaryFailing [fallbackOk] 7 2000) "hi" =
      .ok ["p1", fallbackNotice "gpt-3.5-turbo", "f1", "f2"] ∧
    generate_stream (mkModelRouter primaryFailing [fallbackBad] 7 2000) "hi" =
      .ok ["p1", fallbackNotice "llama", "l1", streamErrSentinel] := by
  have h1 := C7_generate_stream_error_channel
    (mkModelRouter primaryFailing [fallbackOk] 7 2000) "hi" primaryFailing rfl
  have h2 := C7_generate_stream_error_channel
    (mkModelRouter primaryFailing [fallbackBad] 7 2000) "hi" primaryFailing rfl
  constructor
  · have := ((h1.2 ["p1"] rfl).1) [] fallbackOk [] ["f1", "f2"] rfl (by simp) rfl
    simpa [attemptedChunks] using this
  · have := (h2.2 ["p1"] rfl).2 (by
      intro g hg
      have : g = fallbackBad := by
        simpa [eligibleFallbacks, mkModelRouter, fallbackBad, primaryFailing] using hg
      rw [this]
      rfl)
    simpa [attemptedChunks, eligibleFallbacks, mkModelRouter, fallbackBad,
      primaryFailing] using this

/-! ## Claim C2: learning extraction -/

theorem msgLearnings_non_user (uid cid : String) (m : Message)
    (h : m.role ≠ "user") : msgLearnings uid cid m = [] := by
  unfold msgLearnings
  rw [if_neg]
  simp [h]

theorem extractAux_filter_user (uid cid : String) (ms : List Message) :
    extractAux uid cid ms =
      extractAux uid cid (ms.filter (fun m => m.role == "user")) := by
  induction ms with
  | nil => rfl
  | cons m rest ih =>
    by_cases h : (m.role == "user") = true
    · simp only [extractAux, List.filter_cons, h, if_pos rfl, ih]
    · have hne : m.role ≠ "user" := by simpa using h
      simp only [extractAux, List.filter_cons, h, Bool.false_eq_true, if_false,
        msgLearnings_non_user uid cid m hne, List.nil_append, ih]

theorem prefLearnings_sub (uid cid : String) (m : Message) :
    prefLearnings uid cid m = [] ∨
    ∃ kw, preference_keywords.find?
        (fun kw => containsSub (String.mk (lowerData m.content)) kw) = some kw ∧
      prefLearnings uid cid m =
        [⟨uid, "preference", m.content, learningMeta cid m.message_id kw⟩] := by
  unfold prefLearnings
  cases hf : preference_keywords.find?
      (fun kw => containsSub (String.mk (lowerData m.content)) kw) with
  | none => exact Or.inl rfl
  | some kw => exact Or.inr ⟨kw, rfl, rfl⟩

theorem factLearnings_sub (uid cid : String) (m : Message) :
    factLearnings uid cid m = [] ∨
    ∃ kw, fact_keywords.find?
        (fun kw => containsSub (String.mk (lowerData m.content)) kw) = some kw ∧
      factLearnings uid cid m =
        [⟨uid, "fact", m.content, learningMeta cid m.message_id kw⟩] := by
  unfold factLearnings
  cases hf : fact_keywords.find?
      (fun kw => containsSub (String.mk (lowerData m.content)) kw) with
  | none => exact Or.inl rfl
  | some kw => exact Or.inr ⟨kw, rfl, rfl⟩

/-- The two-turn conversation of the C2 scenario: a user turn
"I prefer dark mode interfaces" followed by an assistant turn with the same
text. -/
def convC2 : Conversation :=
  ⟨"c1", "Scenario", [⟨"m1", "user", "I prefer dark mode interfaces", 0, []⟩,
    ⟨"m2", "assistant", "I prefer dark mode interfaces", 1, []⟩], 0, 1, []⟩

/-- Claim C2: `extract_learning` considers only user-role turns; per user
turn it records at most one preference learning and at most one fact
learning, a preference learning exists exactly when some preference keyword
is contained in the lowercased content (the first matching keyword
winning), every recorded learning carries the originating turn's content
and message id; and the scenario conversation yields exactly one
preference-typed candidate attributed to the user turn (the result is a
pure value, nothing is persisted by extraction). -/
theorem C2_extract_learning_shape :
    (∀ uid cid m, m.role ≠ "user" → msgLearnings uid cid m = []) ∧
    (∀ c uid, extract_learning c uid =
      extractAux uid c.conversation_id
        (c.messages.filter (fun m => m.role == "user"))) ∧
    (∀ uid cid m,
      (msgLearnings uid cid m).countP (fun l => l.memory_type == "preference") ≤ 1 ∧
      (msgLearnings uid cid m).countP (fun l => l.memory_type == "fact") ≤ 1) ∧
    (∀ uid cid m, m.role = "user" →
      (preference_keywords.any
          (fun kw => containsSub (String.mk (lowerData m.content)) kw) = true ↔
        ∃ l ∈ msgLearnings uid cid m, l.memory_type = "preference")) ∧
    (∀ uid cid m l, l ∈ msgLearnings uid cid m → l.memory_type = "preference" →
      ∃ kw, preference_keywords.find?
          (fun kw => containsSub (String.mk (lowerData m.content)) kw) = some kw ∧
        l = ⟨uid, "preference", m.content, learningMeta cid m.message_id kw⟩) ∧
    extract_learning convC2 "u1" =
      [⟨"u1", "preference", "I prefer dark mode interfaces",
        learningMeta "c1" "m1" "prefer"⟩] := by
  refine ⟨msgLearnings_non_user, ?_, ?_, ?_, ?_, by decide⟩
  · intro c uid
    exact extractAux_filter_user uid c.conversation_id c.messages
  · intro uid cid m
    unfold msgLearnings
    by_cases h : (m.role == "user") = true
    · rw [if_pos h]
      rcases prefLearnings_sub uid cid m with hp | ⟨kwp, _, hp⟩ <;>
        rcases factLearnings_sub uid cid m with hf | ⟨kwf, _, hf⟩ <;>
          rw [hp, hf] <;> simp [List.countP_cons]
    · rw [if_neg h]
      simp
  · intro uid cid m hrole
    have hu : (m.role == "user") = true := by simp [hrole]
    unfold msgLearnings
    rw [if_pos hu]
    constructor
    · intro hany
      obtain ⟨kw, hkwmem, hkwp⟩ := List.any_eq_true.mp hany
      rcases prefLearnings_sub uid cid m with hp | ⟨kwp, _, hp⟩
      · exfalso
        unfold prefLearnings at hp
        cases hfind : preference_keywords.find?
            (fun kw => containsSub (String.mk (lowerData m.content)) kw) with
        | none =>
          have := List.find?_eq_none.mp hfind kw hkwmem
          exact this hkwp
        | some kwx => rw [hfind] at hp; cases hp
      · refine ⟨⟨uid, "preference", m.content, learningMeta cid m.message_id kwp⟩, ?_, rfl⟩
        rw [hp]
        simp
    · rintro ⟨l, hlmem, hltype⟩
      rcases List.mem_append.mp hlmem with hlp | hlf
      · rcases prefLearnings_sub uid cid m with hp | ⟨kwp, hfind, hp⟩
        · rw [hp] at hlp
          cases hlp
        · have hkwpmem := List.mem_of_find?_eq_some hfind
          have hkwpp := List.find?_some hfind
          exact List.any_eq_true.mpr ⟨kwp, hkwpmem, hkwpp⟩
      · exfalso
        rcases factLearnings_sub uid cid m with hf | ⟨kwf, _, hf⟩
        · rw [hf] at hlf
          cases hlf
        · rw [hf] at hlf
          have : l = ⟨uid, "fact", m.content, learningMeta cid m.message_id kwf⟩ := by
            simpa using hlf
          rw [this] at hltype
          exact absurd (show ("fact" : String) = "preference" from hltype) (by decide)
  · intro uid cid m l hlmem hltype
    unfold msgLearnings at hlmem
    by_cases h : (m.role == "user") = true
    · rw [if_pos h] at hlmem
      rcases List.mem_append.mp hlmem with hlp | hlf
      · rcases prefLearnings_sub uid cid m with hp | ⟨kwp, hfind, hp⟩
        · rw [hp] at hlp
          cases hlp
        · rw [hp] at hlp
          have : l = ⟨uid, "preference", m.content, learningMeta cid m.message_id kwp⟩ := by
            simpa using hlp
          exact ⟨kwp, hfind, this⟩
      · exfalso
        rcases factLearnings_sub uid cid m with hf | ⟨kwf, _, hf⟩
        · rw [hf] at hlf
          cases hlf
        · rw [hf] at hlf
          have : l = ⟨uid, "fact", m.content, learningMeta cid m.message_id kwf⟩ := by
            simpa using hlf
          rw [this] at hltype
          exact absurd (show ("fact" : String) = "preference" from hltype) (by decide)
    · rw [if_neg h] at hlmem
      cases hlmem

/-- Witness for C2 at concrete turns. -/
theorem C2_extract_learning_shape_witness :
    msgLearnings "u1" "c1" ⟨"m2", "assistant", "I prefer dark mode interfaces", 1, []⟩ = [] ∧
    extract_learning convC2 "u1" =
      [⟨"u1", "preference", "I prefer dark mode interfaces",
        learningMeta "c1" "m1" "prefer"⟩] := by
  constructor
  · exact C2_extract_learning_shape.1 "u1" "c1"
      ⟨"m2", "assistant", "I prefer dark mode interfaces", 1, []⟩ (by decide)
  · exact C2_extract_learning_shape.2.2.2.2.2

/-! ## Claim C6: conversation round-trip and idempotence -/

theorem upsert_append {α : Type} (key : α → String) (row : α) (l : List α)
    (h : ∀ r ∈ l, key r ≠ key row) : upsert key row l = l ++ [row] := by
  induction l with
  | nil => rfl
  | cons r rs ih =>
    unfold upsert
    rw [if_neg (h r (List.mem_cons_self r rs))]
    rw [ih (fun x hx => h x (List.mem_cons_of_mem r hx))]
    rfl

theorem find?_upsert {α : Type} (key : α → String) (row : α) (l : List α) :
    (upsert key row l).find? (fun r => key r == key row) = some row := by
  induction l with
  | nil => simp [upsert, List.find?]
  | cons r rs ih =>
    unfold upsert
    by_cases h : key r = key row
    · rw [if_pos h]
      simp [List.find?]
    · rw [if_neg h]
      rw [List.find?_cons_of_neg _ (by simpa using h)]
      exact ih

theorem upsert_nil {α : Type} (key : α → String) (row : α) :
    upsert key row [] = [row] := rfl

theorem upsert_cons {α : Type} (key : α → String) (row r : α) (rs : List α) :
    upsert key row (r :: rs) =
      if key r = key row then row :: rs else r :: upsert key row rs := rfl

theorem upsert_first_match {α : Type} (key : α → String) (row : α) (l1 l2 : List α)
    (h : ∀ r ∈ l1, key r ≠ key row) :
    upsert key row (l1 ++ row :: l2) = l1 ++ row :: l2 := by
  induction l1 with
  | nil =>
    simp only [List.nil_append]
    rw [upsert_cons, if_pos rfl]
  | cons r rs ih =>
    simp only [List.cons_append]
    rw [upsert_cons, if_neg (h r (List.mem_cons_self r rs))]
    rw [ih (fun x hx => h x (List.mem_cons_of_mem r hx))]

theorem upsert_idem {α : Type} (key : α → String) (row : α) (l : List α) :
    upsert key row (upsert key row l) = upsert key row l := by
  induction l with
  | nil =>
    rw [upsert_nil, upsert_cons, if_pos rfl]
  | cons r rs ih =>
    by_cases h : key r = key row
    · rw [upsert_cons, if_pos h, upsert_cons, if_pos rfl]
    · rw [upsert_cons, if_neg h, upsert_cons, if_neg h, ih]

theorem foldl_upsert_append (cid : String) (t : List MsgRow) (ms : List Message)
    (hfresh : ∀ r ∈ t, ∀ m ∈ ms, r.message_id ≠ m.message_id)
    (hnodup : (ms.map Message.message_id).Nodup) :
    ms.foldl (fun t m => upsert (fun r => r.message_id) (msgRowOf cid m) t) t =
      t ++ ms.map (msgRowOf cid) := by
  induction ms generalizing t with
  | nil => simp
  | cons m rest ih =>
    rw [List.foldl_cons]
    rw [upsert_append _ _ t (fun r hr => hfresh r hr m (List.mem_cons_self m rest))]
    rw [List.map_cons] at hnodup
    have hnotin : m.message_id ∉ rest.map Message.message_id :=
      (List.nodup_cons.mp hnodup).1
    have hnodup' : (rest.map Message.message_id).Nodup :=
      (List.nodup_cons.mp hnodup).2
    have hfresh' : ∀ r ∈ t ++ [msgRowOf cid m], ∀ m' ∈ rest,
        r.message_id ≠ m'.message_id := by
      intro r hr m' hm'
      rcases List.mem_append.mp hr with hrt | hrm
      · exact hfresh r hrt m' (List.mem_cons_of_mem m hm')
      · have : r = msgRowOf cid m := by simpa using hrm
        rw [this]
        intro heq
        have heq' : m.message_id = m'.message_id := heq
        exact hnotin (heq' ▸ List.mem_map_of_mem Message.message_id hm')
    rw [ih (t ++ [msgRowOf cid m]) hfresh' hnodup']
    simp

theorem foldl_upsert_idem (cid : String) (t0 : List MsgRow) (ms : List Message)
    (hfresh : ∀ r ∈ t0, ∀ m ∈ ms, r.message_id ≠ m.message_id)
    (hnodup : (ms.map Message.message_id).Nodup) :
    ms.foldl (fun t m => upsert (fun r => r.message_id) (msgRowOf cid m) t)
        (t0 ++ ms.map (msgRowOf cid)) =
      t0 ++ ms.map (msgRowOf cid) := by
  induction ms generalizing t0 with
  | nil => simp
  | cons m rest ih =>
    rw [List.map_cons] at hnodup ⊢
    have hnotin : m.message_id ∉ rest.map Message.message_id :=
      (List.nodup_cons.mp hnodup).1
    have hnodup' : (rest.map Message.message_id).Nodup :=
      (List.nodup_cons.mp hnodup).2
    rw [List.foldl_cons]
    have hup : upsert (fun r => r.message_id) (msgRowOf cid m)
        (t0 ++ msgRowOf cid m :: rest.map (msgRowOf cid)) =
        t0 ++ msgRowOf cid m :: rest.map (msgRowOf cid) :=
      upsert_first_match _ _ t0 _ (fun r hr => hfresh r hr m (List.mem_cons_self m rest))
    rw [hup]
    have hfresh' : ∀ r ∈ t0 ++ [msgRowOf cid m], ∀ m' ∈ rest,
        r.message_id ≠ m'.message_id := by
      intro r hr m' hm'
      rcases List.mem_append.mp hr with hrt | hrm
      · exact hfresh r hrt m' (List.mem_cons_of_mem m hm')
      · have : r = msgRowOf cid m := by simpa using hrm
        rw [this]
        intro heq
        have heq' : m.message_id = m'.message_id := heq
        exact hnotin (heq' ▸ List.mem_map_of_mem Message.message_id hm')
    have := ih (t0 ++ [msgRowOf cid m]) hfresh' hnodup'
    rw [List.append_assoc] at this
    simpa using this

theorem map_msg_roundtrip (cid : String) (ms : List Message) :
    (ms.map (msgRowOf cid)).map rowToMessage = ms := by
  induction ms with
  | nil => rfl
  | cons m rest ih =>
    cases m
    simp only [List.map_cons, ih]
    rfl

/-- Claim C6: `save_conversation` followed by `load_conversation` on the
same id returns a conversation with the same title and the messages in
their original chronological order (hence the same count); saving the same
conversation twice leaves the stored state, in particular the stored
message count, unchanged (replace semantics, not append). -/
theorem C6_save_load_roundtrip_idempotent (s : Db) (c : Conversation)
    (hforeign : ∀ r ∈ s.messages, r.conversation_id ≠ c.conversation_id)
    (hfresh : ∀ r ∈ s.messages, ∀ m ∈ c.messages, r.message_id ≠ m.message_id)
    (hnodup : (c.messages.map Message.message_id).Nodup)
    (hts : c.messages.Pairwise (fun a b => a.timestamp < b.timestamp)) :
    (∃ c', load_conversation (save_conversation s c) c.conversation_id = some c' ∧
      c'.title = c.title ∧ c'.messages = c.messages ∧
      c'.messages.length = c.messages.length) ∧
    save_conversation (save_conversation s c) c = save_conversation s c ∧
    messageCount (save_conversation (save_conversation s c) c) c.conversation_id =
      messageCount (save_conversation s c) c.conversation_id := by
  have hmsg1 : (save_conversation s c).messages =
      s.messages ++ c.messages.map (msgRowOf c.conversation_id) :=
    foldl_upsert_append c.conversation_id s.messages c.messages hfresh hnodup
  have hconv1 : (save_conversation s c).conversations =
      upsert (fun r => r.conversation_id) (convRowOf c) s.conversations := rfl
  have hfind : (save_conversation s c).conversations.find?
      (fun r => r.conversation_id == c.conversation_id) = some (convRowOf c) := by
    rw [hconv1]
    exact find?_upsert (fun r => r.conversation_id) (convRowOf c) s.conversations
  have hfilter : (save_conversation s c).messages.filter
      (fun m => m.conversation_id == c.conversation_id) =
      c.messages.map (msgRowOf c.conversation_id) := by
    rw [hmsg1, List.filter_append]
    have h1 : s.messages.filter (fun m => m.conversation_id == c.conversation_id) = [] := by
      rw [List.filter_eq_nil_iff]
      intro r hr
      simpa using hforeign r hr
    have h2 : (c.messages.map (msgRowOf c.conversation_id)).filter
        (fun m => m.conversation_id == c.conversation_id) =
        c.messages.map (msgRowOf c.conversation_id) := by
      rw [List.filter_eq_self]
      intro r hr
      obtain ⟨m, _, hm⟩ := List.mem_map.mp hr
      rw [← hm]
      simp [msgRowOf]
    rw [h1, h2, List.nil_append]
  have hsorted : List.Sorted (fun a b : MsgRow => a.timestamp ≤ b.timestamp)
      (c.messages.map (msgRowOf c.conversation_id)) := by
    rw [List.Sorted, List.pairwise_map]
    exact hts.imp (fun hab => Nat.le_of_lt hab)
  have hload : load_conversation (save_conversation s c) c.conversation_id =
      some ⟨(convRowOf c).conversation_id, (convRowOf c).title,
        ((c.messages.map (msgRowOf c.conversation_id)).map rowToMessage),
        (convRowOf c).created_at, (convRowOf c).updated_at, (convRowOf c).metadata⟩ := by
    unfold load_conversation
    rw [hfind]
    dsimp only
    rw [hfilter, hsorted.insertionSort_eq]
  have hidem : save_conversation (save_conversation s c) c = save_conversation s c := by
    have hconv2 : upsert (fun r => r.conversation_id) (convRowOf c)
        (save_conversation s c).conversations =
        (save_conversation s c).conversations := by
      rw [hconv1]
      exact upsert_idem (fun r => r.conversation_id) (convRowOf c) s.conversations
    have hmsg2 : c.messages.foldl
        (fun t m => upsert (fun r => r.message_id) (msgRowOf c.conversation_id m) t)
        (save_conversation s c).messages = (save_conversation s c).messages := by
      rw [hmsg1]
      exact foldl_upsert_idem c.conversation_id s.messages c.messages hfresh hnodup
    show ({ (save_conversation s c) with
      conversations := upsert (fun r => r.conversation_id) (convRowOf c)
        (save_conversation s c).conversations
      messages := c.messages.foldl
        (fun t m => upsert (fun r => r.message_id) (msgRowOf c.conversation_id m) t)
        (save_conversation s c).messages } : Db) = save_conversation s c
    rw [hconv2, hmsg2]
  refine ⟨⟨_, hload, rfl, ?_, ?_⟩, hidem, by rw [hidem]⟩
  · exact map_msg_roundtrip c.conversation_id c.messages
  · rw [map_msg_roundtrip c.conversation_id c.messages]

/-- The empty storage state. -/
def db0 : Db := ⟨[], [], [], [], [], 0⟩

/-- A two-message conversation with distinct ids and increasing timestamps. -/
def convW : Conversation :=
  ⟨"c1", "Test Conversation",
    [⟨"m1", "user", "Hello, how are you?", 1, []⟩,
     ⟨"m2", "assistant", "Fine, thanks!", 2, []⟩], 0, 2, []⟩

/-- Witness for C6 at a concrete store and conversation. -/
theorem C6_save_load_roundtrip_idempotent_witness :
    (∃ c', load_conversation (save_conversation db0 convW) convW.conversation_id = some c' ∧
      c'.title = convW.title ∧ c'.messages = convW.messages ∧
      c'.messages.length = convW.messages.length) ∧
    save_conversation (save_conversation db0 convW) convW = save_conversation db0 convW ∧
    messageCount (save_conversation (save_conversation db0 convW) convW)
        convW.conversation_id =
      messageCount (save_conversation db0 convW) convW.conversation_id :=
  C6_save_load_roundtrip_idempotent db0 convW (by simp [db0]) (by simp [db0])
    (by decide) (by decide)

/-! ## Claims C3 and C10: dual-write policy -/

/-- A persistence environment with both stores healthy. -/
def envHealthy : PersistEnv := ⟨true, true, true, fun _ => "kb-1", 7⟩

/-- A persistence environment whose vector insert raises. -/
def envVecFail : PersistEnv := ⟨true, true, false, fun _ => "mem-1", 42⟩

/-- Counterexample to claim C3 as stated: a knowledge-base write through
`add_to_knowledge_base` attempts no structured-store write at all — its
attempt trace is exactly one vector write and the SQLite tables are
untouched — so it is false that every knowledge-base write attempts the
structured store first. -/
theorem C3_knowledge_write_counterexample :
    (add_to_knowledge_base envHealthy db0 ["Doc text"] [[]] none).2.2 =
      [WriteEvent.vector] ∧
    WriteEvent.structured ∉ (add_to_knowledge_base envHealthy db0 ["Doc text"] [[]] none).2.2 ∧
    (add_to_knowledge_base envHealthy db0 ["Doc text"] [[]] none).2.1.episodic = [] ∧
    (add_to_knowledge_base envHealthy db0 ["Doc text"] [[]] none).2.1.vknowledge =
      [⟨"kb-1", "Doc text", []⟩] := by
  refine ⟨rfl, ?_, rfl, rfl⟩
  intro hmem
  have h : (add_to_knowledge_base envHealthy db0 ["Doc text"] [[]] none).2.2 =
      [WriteEvent.vector] := rfl
  rw [h] at hmem
  simp at hmem

/-- Claim C3 (amended): episodic-memory writes follow the dual-write
policy — the structured store is attempted first, the vector mirror is
attempted only if the structured write succeeded, and a vector failure does
not roll back the structured write; knowledge-base writes, however, go only
to the vector store and never attempt the structured store. -/
theorem C3_dual_write_policy (env : PersistEnv) (s : Db)
    (uid mt content : String) (md : Meta)
    (texts : List String) (mds : List Meta) (ids : Option (List String)) :
    (add_episodic_memory env s uid mt content md).2.2.head? = some .structured ∧
    (WriteEvent.vector ∈ (add_episodic_memory env s uid mt content md).2.2 →
      env.sqliteOk = true) ∧
    (env.sqliteOk = true →
      (⟨env.genId s.ctr, uid, mt, content, env.now, md⟩ : EpisodicRow) ∈
        (add_episodic_memory env s uid mt content md).2.1.episodic) ∧
    WriteEvent.structured ∉ (add_to_knowledge_base env s texts mds ids).2.2 ∧
    (add_to_knowledge_base env s texts mds ids).2.1.episodic = s.episodic := by
  cases hsql : env.sqliteOk <;> cases hvc : env.hasVectorClient <;>
    cases hvo : env.vectorOk <;>
      simp [add_episodic_memory, add_to_knowledge_base, hsql, hvc, hvo]

/-- Witness for the amended C3 at a concrete environment with a failing
vector insert. -/
theorem C3_dual_write_policy_witness :
    (add_episodic_memory envVecFail db0 "u" "preference" "dark" []).2.2.head? =
      some .structured ∧
    (WriteEvent.vector ∈ (add_episodic_memory envVecFail db0 "u" "preference" "dark" []).2.2 →
      envVecFail.sqliteOk = true) ∧
    (⟨"mem-1", "u", "preference", "dark", 42, []⟩ : EpisodicRow) ∈
      (add_episodic_memory envVecFail db0 "u" "preference" "dark" []).2.1.episodic ∧
    WriteEvent.structured ∉ (add_to_knowledge_base envVecFail db0 ["d"] [[]] none).2.2 ∧
    (add_to_knowledge_base envVecFail db0 ["d"] [[]] none).2.1.episodic = db0.episodic := by
  have h := C3_dual_write_policy envVecFail db0 "u" "preference" "dark" [] ["d"] [[]] none
  exact ⟨h.1, h.2.1, h.2.2.1 rfl, h.2.2.2.1, h.2.2.2.2⟩

/-- Claim C10: when the SQLite insert inside `add_episodic_memory` succeeds
and commits but the vector insert raises, the call returns `None` while the
episodic row remains committed in the structured store, and
`save_learnings` consequently omits that memory's id from its returned list
even though the record is durably stored. -/
theorem C10_episodic_write_nonatomic (env : PersistEnv) (s : Db)
    (uid mt content : String) (md : Meta)
    (hsql : env.sqliteOk = true) (hvc : env.hasVectorClient = true)
    (hvo : env.vectorOk = false) :
    (add_episodic_memory env s uid mt content md).1 = none ∧
    (⟨env.genId s.ctr, uid, mt, content, env.now, md⟩ : EpisodicRow) ∈
      (add_episodic_memory env s uid mt content md).2.1.episodic ∧
    (save_learnings env s [⟨uid, mt, content, md⟩]).1 = [] ∧
    (⟨env.genId s.ctr, uid, mt, content, env.now, md⟩ : EpisodicRow) ∈
      (save_learnings env s [⟨uid, mt, content, md⟩]).2.episodic := by
  simp [add_episodic_memory, save_learnings, hsql, hvc, hvo]

/-- Witness for C10 at a concrete environment with a failing vector
insert. -/
theorem C10_episodic_write_nonatomic_witness :
    (add_episodic_memory envVecFail db0 "u2" "fact" "My name is Alex" []).1 = none ∧
    (⟨"mem-1", "u2", "fact", "My name is Alex", 42, []⟩ : EpisodicRow) ∈
      (add_episodic_memory envVecFail db0 "u2" "fact" "My name is Alex" []).2.1.episodic ∧
    (save_learnings envVecFail db0 [⟨"u2", "fact", "My name is Alex", []⟩]).1 = [] ∧
    (⟨"mem-1", "u2", "fact", "My name is Alex", 42, []⟩ : EpisodicRow) ∈
      (save_learnings envVecFail db0 [⟨"u2", "fact", "My name is Alex", []⟩]).2.episodic :=
  C10_episodic_write_nonatomic envVecFail db0 "u2" "fact" "My name is Alex" []
    rfl rfl rfl

end Juggernaut
